import Mathlib

/-!
Verification of the gomoqt core: varint framing, the group stream pair
(`moq-web/src/group_stream.ts`), the byte buffer (`moq-web/src/frame.ts`),
the server lifecycle (`moqt/server.go`) and the WebTransport server wrapper
(`webtransport/webtransportgo`).

Bytes are modelled as natural numbers below 256, streams as lists of bytes.
-/

namespace GoMoqt

/-! ## Varint codec

Modelled from the spec: the codec (`writeVarint`, `readVarint`, `readFull` in
`moq-web/src/internal/message`) is not part of the sources at hand; it is the
QUIC variable-length integer encoding described in the spec: the top two bits
of the first byte select a 1/2/4/8-byte big-endian encoding, values at or
above 2^62 are rejected at encode time, and an incomplete varint is a decode
error. -/

/-- Modelled from the spec: encode an unsigned integer as a QUIC varint.
Returns `none` (the `InvalidArgument` error) for values at or above 2^62. -/
def writeVarint (v : Nat) : Option (List Nat) :=
  if v < 64 then
    some [v]
  else if v < 16384 then
    some [64 + v / 256, v % 256]
  else if v < 1073741824 then
    some [128 + v / 16777216, v / 65536 % 256, v / 256 % 256, v % 256]
  else if v < 4611686018427387904 then
    some [192 + v / 72057594037927936,
          v / 281474976710656 % 256, v / 1099511627776 % 256,
          v / 4294967296 % 256, v / 16777216 % 256,
          v / 65536 % 256, v / 256 % 256, v % 256]
  else
    none

/-- Modelled from the spec: decode a QUIC varint from the head of a byte
stream, returning the value, the number of bytes consumed, and the rest.
`none` models the EOF / UnexpectedEOF decode failure on an incomplete
varint. -/
def readVarint : List Nat → Option (Nat × Nat × List Nat)
  | [] => none
  | b :: t =>
    if b / 64 = 0 then
      some (b % 64, 1, t)
    else if b / 64 = 1 then
      match t with
      | b1 :: r => some ((b % 64) * 256 + b1, 2, r)
      | [] => none
    else if b / 64 = 2 then
      match t with
      | b1 :: b2 :: b3 :: r =>
          some ((((b % 64) * 256 + b1) * 256 + b2) * 256 + b3, 4, r)
      | _ => none
    else
      match t with
      | b1 :: b2 :: b3 :: b4 :: b5 :: b6 :: b7 :: r =>
          some ((((((((b % 64) * 256 + b1) * 256 + b2) * 256 + b3) * 256
            + b4) * 256 + b5) * 256 + b6) * 256 + b7, 8, r)
      | _ => none

/-- Modelled from the spec: `readFull` reads exactly `n` bytes, failing on
early termination of the stream. -/
def readFull (n : Nat) (l : List Nat) : Option (List Nat × List Nat) :=
  if n ≤ l.length then some (l.take n, l.drop n) else none

theorem readVarint_writeVarint (v : Nat) (e rest : List Nat)
    (h : writeVarint v = some e) :
    readVarint (e ++ rest) = some (v, e.length, rest) := by
  unfold writeVarint at h
  split_ifs at h with h1 h2 h3 h4
  · cases h
    have hd : v / 64 = 0 := by omega
    simp [readVarint, hd]
    omega
  · cases h
    have hd : (64 + v / 256) / 64 = 1 := by omega
    simp [readVarint, hd]
    omega
  · cases h
    have hd : (128 + v / 16777216) / 64 = 2 := by omega
    simp [readVarint, hd]
    omega
  · cases h
    have hd : (192 + v / 72057594037927936) / 64 = 3 := by omega
    simp [readVarint, hd]
    omega

theorem writeVarint_isSome (v : Nat) (h : v < 4611686018427387904) :
    ∃ e, writeVarint v = some e := by
  unfold writeVarint
  split_ifs <;> exact ⟨_, rfl⟩

theorem readFull_append (l rest : List Nat) :
    readFull l.length (l ++ rest) = some (l, rest) := by
  simp [readFull]

/-! ## Byte buffer (`moq-web/src/frame.ts`, class `BytesBuffer`)

The backing `ArrayBuffer` is the list `buf` (its length is the capacity);
`len` is the current valid length. -/

structure BytesBuffer where
  buf : List Nat
  len : Nat

/-- From `frame.ts`, getter `bytes`: the valid prefix of the backing store. -/
def BytesBuffer.bytes (b : BytesBuffer) : List Nat :=
  b.buf.take b.len

/-- From `frame.ts`, `BytesBuffer.write(p)`: reallocate the backing buffer to
exactly `p.byteLength` when the capacity is insufficient, write `p` at offset
zero, and set the length to `p.byteLength`. -/
def BytesBuffer.write (b : BytesBuffer) (p : List Nat) : BytesBuffer :=
  let buf0 := if b.buf.length < p.length then List.replicate p.length 0 else b.buf
  { buf := p ++ buf0.drop p.length, len := p.length }

/-- Destination argument of `copyTo`: a `Uint8Array`, an `ArrayBuffer`
(both byte-addressable, carrying their bytes), or an unsupported value. -/
inductive CopyDest
  | u8 (arr : List Nat)
  | arrayBuf (arr : List Nat)
  | unsupported

/-- From `frame.ts`, `BytesBuffer.copyTo(dest)`: reject a destination that is
not byte-addressable, reject one smaller than the valid length, otherwise copy
`min len capacity` bytes into the front of the destination. Returns the
destination contents after the copy. -/
def BytesBuffer.copyTo (b : BytesBuffer) (dest : CopyDest) : Except String (List Nat) :=
  match dest with
  | .unsupported => .error "Unsupported destination type"
  | .u8 t =>
    if t.length < b.len then .error "Destination buffer too small"
    else .ok (b.buf.take (min b.len b.buf.length) ++ t.drop (min b.len b.buf.length))
  | .arrayBuf t =>
    if t.length < b.len then .error "Destination buffer too small"
    else .ok (b.buf.take (min b.len b.buf.length) ++ t.drop (min b.len b.buf.length))

/-! ## Group stream framing (`moq-web/src/group_stream.ts`)

The wire of one unidirectional group stream is a list of bytes. A frame
source is its byte content (`writeFrame` first copies the source into a fresh
buffer of `src.byteLength` bytes via `copyTo`, which for a well-formed source
yields exactly its bytes). -/

/-- From `group_stream.ts`, `GroupWriter.writeFrame(src)`: append the varint
encoding of the source byte length, then the source bytes, to the stream.
`none` models the error return of `writeVarint`. -/
def writeFrame (wire : List Nat) (src : List Nat) : Option (List Nat) :=
  match writeVarint src.length with
  | some pre => some (wire ++ pre ++ src)
  | none => none

/-- Iterated `GroupWriter.writeFrame` starting from an empty stream: the wire
produced by writing each frame in order. -/
def writeFrames : List (List Nat) → Option (List Nat)
  | [] => some []
  | f :: fs =>
    match writeVarint f.length, writeFrames fs with
    | some pre, some rest => some (pre ++ f ++ rest)
    | _, _ => none

/-- Errors surfaced by `GroupReader.readFrame`: the varint length decode
failed, `readFull` terminated early, or the caller's sink threw. -/
inductive FrameErr
  | varintDecode
  | shortRead
  | sinkThrew
deriving DecidableEq, Repr

/-- From `group_stream.ts`, `GroupReader.readFrame(sink)`: read a varint
length, allocate a buffer of exactly that size, fill it with `readFull`, then
deliver it to the sink. Returns the error (if any), the list of sink
invocations (each entry one delivered buffer), and the unconsumed stream.
`sinkFails` models a sink whose own `write` throws. -/
def readFrame (sinkFails : Bool) (wire : List Nat) :
    Option FrameErr × List (List Nat) × List Nat :=
  match readVarint wire with
  | none => (some .varintDecode, [], wire)
  | some (len, _, rest) =>
    match readFull len rest with
    | none => (some .shortRead, [], rest)
    | some (buf, rest2) =>
      if sinkFails then (some .sinkThrew, [buf], rest2)
      else (none, [buf], rest2)

/-- Iterated `GroupReader.readFrame` with a collecting sink: `n` reads,
returning all sink deliveries in order and the unconsumed stream, or `none`
if any read errored. -/
def readFrames : Nat → List Nat → Option (List (List Nat) × List Nat)
  | 0, wire => some ([], wire)
  | n + 1, wire =>
    match readFrame false wire with
    | (none, ds, rest) =>
      match readFrames n rest with
      | some (fs, rest2) => some (ds ++ fs, rest2)
      | none => none
    | (some _, _, _) => none

/-- The wire shape claimed for a frame sequence: each frame contributes the
varint encoding of its byte length followed by exactly its payload bytes. -/
def encWire : List (List Nat) → List Nat
  | [] => []
  | f :: fs => (writeVarint f.length).getD [] ++ f ++ encWire fs

theorem take_append_self (xs ys : List Nat) : (xs ++ ys).take xs.length = xs := by
  simp

theorem drop_append_self (xs ys : List Nat) : (xs ++ ys).drop xs.length = ys := by
  simp

/-- C1: for every finite sequence of byte arrays written via
`GroupWriter.writeFrame` to an in-memory stream read by a paired
`GroupReader.readFrame`, the reader delivers exactly one sink invocation per
written frame, in write order, with byte-identical contents; each frame
occupies the wire as a varint of the source's byte length followed by exactly
that many payload bytes. -/
theorem frame_roundtrip (frames : List (List Nat))
    (h : ∀ f ∈ frames, f.length < 4611686018427387904) :
    ∃ wire, writeFrames frames = some wire ∧
      readFrames frames.length wire = some (frames, []) ∧
      wire = encWire frames := by
  induction frames with
  | nil => exact ⟨[], rfl, rfl, rfl⟩
  | cons f fs ih =>
    obtain ⟨e, he⟩ := writeVarint_isSome f.length (h f (by simp))
    obtain ⟨w, hw, hr, hshape⟩ := ih (fun g hg => h g (by simp [hg]))
    refine ⟨e ++ (f ++ w), ?_, ?_, ?_⟩
    · show writeFrames (f :: fs) = _
      unfold writeFrames
      rw [he, hw]
      simp
    · have hv := readVarint_writeVarint f.length e (f ++ w) he
      have hfull := readFull_append f w
      show readFrames (f :: fs).length (e ++ (f ++ w)) = _
      simp [readFrames, readFrame, hv, hfull, hr]
    · simp [encWire, he, hshape]

/-- C1 witness: the spec's scenario A frame sequence round-trips. -/
theorem frame_roundtrip_witness :
    (∀ f ∈ [[1], [2, 3], [], [4, 5, 6]], List.length f < 4611686018427387904) ∧
    ∃ wire, writeFrames [[1], [2, 3], [], [4, 5, 6]] = some wire ∧
      readFrames 4 wire = some ([[1], [2, 3], [], [4, 5, 6]], []) ∧
      wire = encWire [[1], [2, 3], [], [4, 5, 6]] :=
  ⟨by decide, frame_roundtrip [[1], [2, 3], [], [4, 5, 6]] (by decide)⟩

/-- C6: for every `GroupReader.readFrame` call, the caller's sink is invoked
at most once, and only with a buffer of exactly the decoded varint length
completely filled by `readFull`; any error from the varint decode, the
transport read, or the sink itself is returned to the caller, and a partial
frame is never delivered to the sink. -/
theorem readFrame_sink_contract (sinkFails : Bool) (wire : List Nat) :
    (readFrame sinkFails wire).2.1.length ≤ 1 ∧
    (∀ c ∈ (readFrame sinkFails wire).2.1, ∃ len k rest,
        readVarint wire = some (len, k, rest) ∧ len ≤ rest.length ∧
        c = rest.take len ∧ c.length = len) ∧
    (readVarint wire = none →
        readFrame sinkFails wire = (some .varintDecode, [], wire)) ∧
    (∀ len k rest, readVarint wire = some (len, k, rest) → rest.length < len →
        readFrame sinkFails wire = (some .shortRead, [], rest)) ∧
    (∀ len k rest, readVarint wire = some (len, k, rest) → len ≤ rest.length →
        readFrame sinkFails wire =
          ((if sinkFails then some .sinkThrew else none),
            [rest.take len], rest.drop len)) := by
  cases hv : readVarint wire with
  | none =>
    have hrf : readFrame sinkFails wire = (some .varintDecode, [], wire) := by
      unfold readFrame
      rw [hv]
    rw [hrf]
    refine ⟨by simp, by simp, fun _ => rfl, ?_, ?_⟩
    · intro len k rest hs
      exact absurd hs (by simp)
    · intro len k rest hs
      exact absurd hs (by simp)
  | some p =>
    obtain ⟨len, k, rest⟩ := p
    by_cases hlen : len ≤ rest.length
    · have hrf : readFrame sinkFails wire =
          ((if sinkFails then some .sinkThrew else none),
            [rest.take len], rest.drop len) := by
        unfold readFrame
        rw [hv]
        cases sinkFails <;> simp [readFull, hlen]
      rw [hrf]
      refine ⟨by simp, ?_, ?_, ?_, ?_⟩
      · intro c hc
        simp only [List.mem_singleton] at hc
        subst hc
        refine ⟨len, k, rest, rfl, hlen, rfl, ?_⟩
        simp [List.length_take]
        omega
      · intro hnone
        exact Option.noConfusion hnone
      · intro l' k' r' hs hlt
        simp only [Option.some.injEq, Prod.mk.injEq] at hs
        obtain ⟨rfl, _, rfl⟩ := hs
        omega
      · intro l' k' r' hs _
        simp only [Option.some.injEq, Prod.mk.injEq] at hs
        obtain ⟨rfl, _, rfl⟩ := hs
        rfl
    · have hrf : readFrame sinkFails wire = (some .shortRead, [], rest) := by
        unfold readFrame
        rw [hv]
        simp [readFull, hlen]
      rw [hrf]
      refine ⟨by simp, by simp, ?_, ?_, ?_⟩
      · intro hnone
        exact Option.noConfusion hnone
      · intro l' k' r' hs _
        simp only [Option.some.injEq, Prod.mk.injEq] at hs
        obtain ⟨rfl, _, rfl⟩ := hs
        rfl
      · intro l' k' r' hs hle
        simp only [Option.some.injEq, Prod.mk.injEq] at hs
        obtain ⟨rfl, _, rfl⟩ := hs
        omega

/-- C6 witness: concrete reads exercising the contract. -/
theorem readFrame_sink_contract_witness :
    readFrame false [2, 9, 9] = (none, [[9, 9]], []) ∧
    readFrame false [2, 9] = (some .shortRead, [], [9]) ∧
    readFrame true [2, 9, 9] = (some .sinkThrew, [[9, 9]], []) := by
  refine ⟨?_, ?_, ?_⟩
  · have h := (readFrame_sink_contract false [2, 9, 9]).2.2.2.2 2 1 [9, 9] (by decide)
      (by decide)
    simpa using h
  · have h := (readFrame_sink_contract false [2, 9]).2.2.2.1 2 1 [9] (by decide)
      (by decide)
    simpa using h
  · have h := (readFrame_sink_contract true [2, 9, 9]).2.2.2.2 2 1 [9, 9] (by decide)
      (by decide)
    simpa using h

/-- C9: after `write(p)` the buffer holds exactly `p` (write replaces rather
than appends), the capacity is reallocated only when it was below
`p.byteLength`, and `copyTo(dst)` copies the valid bytes when `dst` is large
enough and fails when `dst` is smaller or not byte-addressable. -/
theorem bytesBuffer_write_copyTo (b : BytesBuffer) (p : List Nat) :
    (b.write p).len = p.length ∧
    (b.write p).bytes = p ∧
    (b.write p).buf.length = max b.buf.length p.length ∧
    (p.length ≤ b.buf.length → (b.write p).buf = p ++ b.buf.drop p.length) ∧
    (∀ t : List Nat, p.length ≤ t.length →
        (b.write p).copyTo (.u8 t) = .ok (p ++ t.drop p.length)) ∧
    (∀ t : List Nat, t.length < p.length →
        (b.write p).copyTo (.u8 t) = .error "Destination buffer too small") ∧
    (b.write p).copyTo .unsupported = .error "Unsupported destination type" := by
  have hlen : (b.write p).len = p.length := rfl
  have hbuf : (b.write p).buf =
      p ++ (if b.buf.length < p.length then List.replicate p.length 0 else b.buf).drop
        p.length := rfl
  have hbuflen : (b.write p).buf.length = max b.buf.length p.length := by
    rw [hbuf]
    by_cases hc : b.buf.length < p.length <;> simp [hc] <;> omega
  have hmin : min (b.write p).len (b.write p).buf.length = p.length := by
    rw [hlen, hbuflen]; omega
  have htake : (b.write p).buf.take p.length = p := by
    rw [hbuf]
    exact take_append_self p
        ((if b.buf.length < p.length then List.replicate p.length 0 else b.buf).drop
          p.length)
  refine ⟨hlen, ?_, hbuflen, ?_, ?_, ?_, rfl⟩
  · rw [BytesBuffer.bytes, hlen, htake]
  · intro hle
    rw [hbuf, if_neg (by omega)]
  · intro t ht
    have hmin2 : p.length ⊓ (b.write p).buf.length = p.length := by
      rw [hbuflen]
      omega
    simp only [BytesBuffer.copyTo, hlen, hmin2, htake]
    rw [if_neg (by omega)]
  · intro t ht
    simp only [BytesBuffer.copyTo, hlen]
    rw [if_pos (by omega)]

/-- C9 witness: a concrete buffer with prior longer content is replaced, and
copy succeeds or fails with the destination size. -/
theorem bytesBuffer_write_copyTo_witness :
    ((BytesBuffer.mk [7, 7, 7] 3).write [5]).len = 1 ∧
    ((BytesBuffer.mk [7, 7, 7] 3).write [5]).bytes = [5] ∧
    (1 ≤ 3 → ((BytesBuffer.mk [7, 7, 7] 3).write [5]).buf = [5] ++ [7, 7]) ∧
    ((BytesBuffer.mk [7, 7, 7] 3).write [5]).copyTo (.u8 [0, 0]) = .ok [5, 0] ∧
    ((BytesBuffer.mk [7, 7, 7] 3).write [5]).copyTo (.u8 []) =
      .error "Destination buffer too small" := by
  have h := bytesBuffer_write_copyTo (BytesBuffer.mk [7, 7, 7] 3) [5]
  refine ⟨h.1, h.2.1, fun _ => by simpa using h.2.2.2.1 (by decide), ?_, ?_⟩
  · simpa using h.2.2.2.2.1 [0, 0] (by decide)
  · simpa using h.2.2.2.2.2.1 [] (by decide)

/-! ## Group stream cancellation (`moq-web/src/group_stream.ts`)

The derived context of a writer or reader is created with `withCancelCause`
from the track context; its `err()` is non-nil exactly when a cancel cause
has been stored. The transport stream is observed through the codes passed
to its `cancel`. -/

/-- Modelled from the spec: `GroupErrorCode` values are defined in
`moq-web/src/error.ts`, not among the sources; only the distinctness of the
two codes used by the parent-done watcher matters. -/
def GroupErrorCode.SubscribeCanceled : Nat := 2

/-- Modelled from the spec: the reader-side code of the parent-done watcher. -/
def GroupErrorCode.PublishAborted : Nat := 3

/-- Cause stored via the derived context's cancel-cause function: `undefined`
from `close()`, or a `WebTransportStreamError` with `source = "stream"` and a
numeric code from `cancel(code)`. -/
inductive CancelCause
  | closed
  | streamError (code : Nat)
deriving DecidableEq, Repr

/-- State of one `GroupWriter` or `GroupReader`: the derived context's cancel
cause (`none` while the context is live) and the codes passed to the
transport stream's `cancel`, in call order. -/
structure GroupStreamState where
  ctxCause : Option CancelCause
  transportCancels : List Nat
deriving DecidableEq, Repr

/-- From `group_stream.ts`, `GroupWriter.cancel(code)`: do nothing when the
derived context is already errored; otherwise store a
`WebTransportStreamError` cause via the cancel-cause function, then reset the
transport stream with the code. -/
def GroupWriter.cancel (s : GroupStreamState) (code : Nat) : GroupStreamState :=
  match s.ctxCause with
  | some _ => s
  | none =>
    { ctxCause := some (.streamError code),
      transportCancels := s.transportCancels ++ [code] }

/-- From `group_stream.ts`, `GroupReader.cancel(code)`: same guard and effect
as the writer, resetting the receive stream (stop-sending) with the code. -/
def GroupReader.cancel (s : GroupStreamState) (code : Nat) : GroupStreamState :=
  match s.ctxCause with
  | some _ => s
  | none =>
    { ctxCause := some (.streamError code),
      transportCancels := s.transportCancels ++ [code] }

/-- From the `GroupWriter` constructor: the `trackCtx.done()` watcher fires
`cancel(GroupErrorCode.SubscribeCanceled)` when the track context is done. -/
def GroupWriter.onTrackDone (s : GroupStreamState) : GroupStreamState :=
  GroupWriter.cancel s GroupErrorCode.SubscribeCanceled

/-- From the `GroupReader` constructor: the `trackCtx.done()` watcher fires
`cancel(GroupErrorCode.PublishAborted)` when the track context is done. -/
def GroupReader.onTrackDone (s : GroupStreamState) : GroupStreamState :=
  GroupReader.cancel s GroupErrorCode.PublishAborted

theorem writerCancel_errored (s : GroupStreamState) (c : CancelCause)
    (h : s.ctxCause = some c) (code : Nat) : GroupWriter.cancel s code = s := by
  unfold GroupWriter.cancel
  rw [h]

theorem readerCancel_errored (s : GroupStreamState) (c : CancelCause)
    (h : s.ctxCause = some c) (code : Nat) : GroupReader.cancel s code = s := by
  unfold GroupReader.cancel
  rw [h]

theorem writerFoldlCancel_errored (cs : List Nat) (s : GroupStreamState)
    (c : CancelCause) (h : s.ctxCause = some c) :
    cs.foldl GroupWriter.cancel s = s := by
  induction cs with
  | nil => rfl
  | cons d ds ih =>
    rw [List.foldl_cons, writerCancel_errored s c h d]
    exact ih

theorem readerFoldlCancel_errored (cs : List Nat) (s : GroupStreamState)
    (c : CancelCause) (h : s.ctxCause = some c) :
    cs.foldl GroupReader.cancel s = s := by
  induction cs with
  | nil => rfl
  | cons d ds ih =>
    rw [List.foldl_cons, readerCancel_errored s c h d]
    exact ih

/-- C3: for every `GroupWriter` or `GroupReader` and every sequence of two or
more `cancel(code)` calls on a live stream, only the first call invokes the
transport stream's `cancel` and sets the derived context's cancel cause;
every later call, with any code, returns without effect, and the context's
error reflects the first cause only. -/
theorem cancel_idempotent (s : GroupStreamState) (h : s.ctxCause = none)
    (c : Nat) (cs : List Nat) :
    ((c :: cs).foldl GroupWriter.cancel s).ctxCause =
        some (.streamError c) ∧
    ((c :: cs).foldl GroupWriter.cancel s).transportCancels =
        s.transportCancels ++ [c] ∧
    ((c :: cs).foldl GroupReader.cancel s).ctxCause =
        some (.streamError c) ∧
    ((c :: cs).foldl GroupReader.cancel s).transportCancels =
        s.transportCancels ++ [c] := by
  have hw1 : GroupWriter.cancel s c =
      { ctxCause := some (.streamError c),
        transportCancels := s.transportCancels ++ [c] } := by
    unfold GroupWriter.cancel
    rw [h]
  have hr1 : GroupReader.cancel s c =
      { ctxCause := some (.streamError c),
        transportCancels := s.transportCancels ++ [c] } := by
    unfold GroupReader.cancel
    rw [h]
  rw [List.foldl_cons, List.foldl_cons, hw1, hr1,
    writerFoldlCancel_errored cs _ _ rfl,
    readerFoldlCancel_errored cs _ _ rfl]
  exact ⟨rfl, rfl, rfl, rfl⟩

/-- C3 witness: three successive cancels on a live stream keep the first
cause and a single transport reset. -/
theorem cancel_idempotent_witness :
    (([5, 6, 7] : List Nat).foldl GroupWriter.cancel ⟨none, []⟩).ctxCause =
        some (.streamError 5) ∧
    (([5, 6, 7] : List Nat).foldl GroupWriter.cancel ⟨none, []⟩).transportCancels =
        [5] ∧
    (([5, 6, 7] : List Nat).foldl GroupReader.cancel ⟨none, []⟩).ctxCause =
        some (.streamError 5) ∧
    (([5, 6, 7] : List Nat).foldl GroupReader.cancel ⟨none, []⟩).transportCancels =
        [5] := by
  have h := cancel_idempotent ⟨none, []⟩ rfl 5 [6, 7]
  simpa using h

/-- C4: when the track context becomes done, each live group writer cancels
exactly once with `SubscribeCanceled` and each live group reader exactly once
with `PublishAborted`; the watcher's effect is a no-op if the child's derived
context is already errored. -/
theorem parent_cancel_propagation (w r : GroupStreamState)
    (hw : w.ctxCause = none) (hr : r.ctxCause = none) :
    GroupWriter.onTrackDone w =
      { ctxCause := some (.streamError GroupErrorCode.SubscribeCanceled),
        transportCancels :=
          w.transportCancels ++ [GroupErrorCode.SubscribeCanceled] } ∧
    GroupWriter.onTrackDone (GroupWriter.onTrackDone w) =
      GroupWriter.onTrackDone w ∧
    GroupReader.onTrackDone r =
      { ctxCause := some (.streamError GroupErrorCode.PublishAborted),
        transportCancels :=
          r.transportCancels ++ [GroupErrorCode.PublishAborted] } ∧
    GroupReader.onTrackDone (GroupReader.onTrackDone r) =
      GroupReader.onTrackDone r ∧
    (∀ s : GroupStreamState, ∀ c, s.ctxCause = some c →
      GroupWriter.onTrackDone s = s ∧ GroupReader.onTrackDone s = s) := by
  have hw1 : GroupWriter.onTrackDone w =
      { ctxCause := some (.streamError GroupErrorCode.SubscribeCanceled),
        transportCancels :=
          w.transportCancels ++ [GroupErrorCode.SubscribeCanceled] } := by
    unfold GroupWriter.onTrackDone GroupWriter.cancel
    rw [hw]
  have hr1 : GroupReader.onTrackDone r =
      { ctxCause := some (.streamError GroupErrorCode.PublishAborted),
        transportCancels :=
          r.transportCancels ++ [GroupErrorCode.PublishAborted] } := by
    unfold GroupReader.onTrackDone GroupReader.cancel
    rw [hr]
  refine ⟨hw1, ?_, hr1, ?_, ?_⟩
  · rw [hw1]
    exact writerCancel_errored _ _ rfl _
  · rw [hr1]
    exact readerCancel_errored _ _ rfl _
  · intro s c hc
    exact ⟨writerCancel_errored s c hc _, readerCancel_errored s c hc _⟩

/-- C4 witness: the watcher on a live pair, and its no-op on an errored
child. -/
theorem parent_cancel_propagation_witness :
    GroupWriter.onTrackDone ⟨none, []⟩ =
      { ctxCause := some (.streamError GroupErrorCode.SubscribeCanceled),
        transportCancels := [GroupErrorCode.SubscribeCanceled] } ∧
    GroupReader.onTrackDone ⟨none, []⟩ =
      { ctxCause := some (.streamError GroupErrorCode.PublishAborted),
        transportCancels := [GroupErrorCode.PublishAborted] } ∧
    GroupWriter.onTrackDone ⟨some .closed, [9]⟩ = ⟨some .closed, [9]⟩ := by
  have h := parent_cancel_propagation ⟨none, []⟩ ⟨none, []⟩ rfl rfl
  exact ⟨by simpa using h.1, by simpa using h.2.2.1,
    (h.2.2.2.2 ⟨some .closed, [9]⟩ .closed rfl).1⟩

/-! ## Server lifecycle (`moqt/server.go`)

The session-mutex-protected regions of `Close`, `Shutdown` and
`removeSession` are atomic steps of a trace machine. The done channel is
recorded as the list of close events; each event carries a snapshot of the
shutdown flag and the active-session set taken at the moment of the close, so
"closed at most once" and "closed only in a given state" are properties of
the log. -/

/-- Lifecycle state: the atomic shutdown flag, the active-session set
(session ids), and the done-channel close log (the channel is closed iff the
log is nonempty). -/
structure SrvState where
  shutdown : Bool
  sessions : Finset Nat
  closeLog : List (Bool × Finset Nat)
deriving DecidableEq

/-- From `server.go`: the
`select case <-doneChan: default: close(doneChan)` idiom — close the done
channel only when it is not already closed, recording the snapshot. -/
def closeDone (s : SrvState) : SrvState :=
  if s.closeLog.isEmpty then
    { s with closeLog := [(s.shutdown, s.sessions)] }
  else s

/-- One atomic lock-protected step: `setFlag` is `inShutdown.Store(true)` at
the top of `Close`/`Shutdown`; `emptyCheck` is their session-mutex block that
closes the done channel when no session is active; `removeSession id` is
`Server.removeSession`. -/
inductive SrvAction
  | setFlag
  | emptyCheck
  | removeSession (id : Nat)
deriving DecidableEq

/-- From `server.go`: the per-action state transition. `removeSession`
returns early when the session is absent; after deleting it closes the done
channel only when the set became empty and the server is shutting down. -/
def srvStep (s : SrvState) : SrvAction → SrvState
  | .setFlag => { s with shutdown := true }
  | .emptyCheck => if s.sessions = ∅ then closeDone s else s
  | .removeSession id =>
    if id ∈ s.sessions then
      if s.sessions.erase id = ∅ ∧ s.shutdown = true then
        closeDone { s with sessions := s.sessions.erase id }
      else { s with sessions := s.sessions.erase id }
    else s

def srvRun (s : SrvState) : List SrvAction → SrvState
  | [] => s
  | a :: t => srvRun (srvStep s a) t

/-- Session ids removed along a trace. -/
def removeIds : List SrvAction → List Nat
  | [] => []
  | .removeSession id :: t => id :: removeIds t
  | _ :: t => removeIds t

/-- Program order inside `Close` and `Shutdown`: the shutdown flag is stored
before the session-mutex empty check runs, so when the flag is not yet set no
`emptyCheck` occurs before a `setFlag`. -/
def checksFlagged : List SrvAction → Bool
  | [] => true
  | .setFlag :: _ => true
  | .emptyCheck :: _ => false
  | .removeSession _ :: t => checksFlagged t

def srvValid (s : SrvState) (t : List SrvAction) : Prop :=
  s.shutdown = true ∨ checksFlagged t = true

theorem closeDone_shutdown (s : SrvState) :
    (closeDone s).shutdown = s.shutdown := by
  unfold closeDone
  split <;> rfl

theorem srvStep_shutdown_mono (s : SrvState) (a : SrvAction)
    (h : s.shutdown = true) : (srvStep s a).shutdown = true := by
  cases a with
  | setFlag => rfl
  | emptyCheck =>
    simp only [srvStep]
    split
    · rw [closeDone_shutdown]
      exact h
    · exact h
  | removeSession id =>
    simp only [srvStep]
    split
    · split
      · rw [closeDone_shutdown]
        exact h
      · exact h
    · exact h

theorem srvValid_emptyCheck (s : SrvState) (t : List SrvAction)
    (h : srvValid s (.emptyCheck :: t)) : s.shutdown = true := by
  rcases h with h | h
  · exact h
  · exact absurd h (by simp [checksFlagged])

theorem srvValid_step (s : SrvState) (a : SrvAction) (t : List SrvAction)
    (h : srvValid s (a :: t)) : srvValid (srvStep s a) t := by
  rcases h with h | h
  · exact Or.inl (srvStep_shutdown_mono s a h)
  · cases a with
    | setFlag => exact Or.inl rfl
    | emptyCheck => exact absurd h (by simp [checksFlagged])
    | removeSession id => exact Or.inr h

/-- Safety invariant of the done-channel log: the channel was closed at most
once, and at every close the shutdown flag was true and the session set was
empty. -/
def srvLogOK (s : SrvState) : Prop :=
  s.closeLog.length ≤ 1 ∧ ∀ e ∈ s.closeLog, e.1 = true ∧ e.2 = ∅

theorem closeDone_logOK (s : SrvState) (hflag : s.shutdown = true)
    (hsess : s.sessions = ∅) (h : srvLogOK s) : srvLogOK (closeDone s) := by
  unfold closeDone
  split
  · refine ⟨by simp, ?_⟩
    intro e hmem
    simp only [List.mem_singleton] at hmem
    subst hmem
    exact ⟨hflag, hsess⟩
  · exact h

theorem srvStep_logOK (s : SrvState) (a : SrvAction)
    (hval : a = .emptyCheck → s.shutdown = true)
    (h : srvLogOK s) : srvLogOK (srvStep s a) := by
  cases a with
  | setFlag => exact h
  | emptyCheck =>
    simp only [srvStep]
    split
    · rename_i hs
      exact closeDone_logOK s (hval rfl) hs h
    · exact h
  | removeSession id =>
    simp only [srvStep]
    split
    · split
      · rename_i hc
        exact closeDone_logOK _ hc.2 hc.1 h
      · exact h
    · exact h

theorem srvRun_logOK (t : List SrvAction) (s : SrvState)
    (hval : srvValid s t) (h : srvLogOK s) : srvLogOK (srvRun s t) := by
  induction t generalizing s with
  | nil => exact h
  | cons a t ih =>
    refine ih (srvStep s a) (srvValid_step s a t hval) ?_
    refine srvStep_logOK s a ?_ h
    intro ha
    subst ha
    exact srvValid_emptyCheck s t hval

theorem closeDone_ne (s : SrvState) : (closeDone s).closeLog ≠ [] := by
  unfold closeDone
  split
  · simp
  · rename_i h
    simpa [List.isEmpty_iff] using h

theorem srvStep_log_mono (s : SrvState) (a : SrvAction)
    (h : s.closeLog ≠ []) : (srvStep s a).closeLog ≠ [] := by
  cases a with
  | setFlag => exact h
  | emptyCheck =>
    simp only [srvStep]
    split
    · exact closeDone_ne s
    · exact h
  | removeSession id =>
    simp only [srvStep]
    split
    · split
      · exact closeDone_ne _
      · exact h
    · exact h

theorem srvAction_mem_tail {a b : SrvAction} {t : List SrvAction}
    (h : a ∈ b :: t) (hne : a ≠ b) : a ∈ t := by
  cases List.mem_cons.mp h with
  | inl h => exact absurd h hne
  | inr h => exact h

/-- Liveness ledger: the done channel is already closed, or the remaining
trace still guarantees a close — an `emptyCheck` will observe the empty set,
or the pending removals empty a nonempty set while the flag is already set
or an `emptyCheck` is still to come. -/
def willClose (s : SrvState) (t : List SrvAction) : Prop :=
  s.closeLog ≠ [] ∨
  (s.sessions = ∅ ∧ SrvAction.emptyCheck ∈ t) ∨
  (s.sessions ≠ ∅ ∧ (∀ x ∈ s.sessions, x ∈ removeIds t) ∧
    (s.shutdown = true ∨ SrvAction.emptyCheck ∈ t))

theorem willClose_step (s : SrvState) (a : SrvAction) (t : List SrvAction)
    (hval : srvValid s (a :: t)) (h : willClose s (a :: t)) :
    willClose (srvStep s a) t := by
  rcases h with h1 | ⟨he, hc⟩ | ⟨hne, hsub, hor⟩
  · exact Or.inl (srvStep_log_mono s a h1)
  · cases a with
    | setFlag =>
      exact Or.inr (Or.inl ⟨he, srvAction_mem_tail hc (by decide)⟩)
    | emptyCheck =>
      simp only [srvStep, if_pos he]
      exact Or.inl (closeDone_ne s)
    | removeSession id =>
      have hid : id ∉ s.sessions := by
        rw [he]
        exact Finset.not_mem_empty id
      simp only [srvStep, if_neg hid]
      exact Or.inr (Or.inl ⟨he, srvAction_mem_tail hc (fun hcc => SrvAction.noConfusion hcc)⟩)
  · cases a with
    | setFlag =>
      exact Or.inr (Or.inr ⟨hne, hsub, Or.inl rfl⟩)
    | emptyCheck =>
      have hflag := srvValid_emptyCheck s t hval
      simp only [srvStep, if_neg hne]
      exact Or.inr (Or.inr ⟨hne, hsub, Or.inl hflag⟩)
    | removeSession id =>
      by_cases hid : id ∈ s.sessions
      · by_cases hemp : s.sessions.erase id = ∅
        · by_cases hflag : s.shutdown = true
          · simp only [srvStep, if_pos hid, if_pos (And.intro hemp hflag)]
            exact Or.inl (closeDone_ne _)
          · have hcheck : SrvAction.emptyCheck ∈ t := by
              rcases hor with h | h
              · exact absurd h hflag
              · exact srvAction_mem_tail h (fun hcc => SrvAction.noConfusion hcc)
            have hcond : ¬(s.sessions.erase id = ∅ ∧ s.shutdown = true) := by
              intro hand
              exact hflag hand.2
            simp only [srvStep, if_pos hid, if_neg hcond]
            exact Or.inr (Or.inl ⟨hemp, hcheck⟩)
        · have hcond : ¬(s.sessions.erase id = ∅ ∧ s.shutdown = true) := by
            intro hand
            exact hemp hand.1
          simp only [srvStep, if_pos hid, if_neg hcond]
          refine Or.inr (Or.inr ⟨hemp, ?_, ?_⟩)
          · intro x hx
            have hxs : x ∈ s.sessions := Finset.mem_of_mem_erase hx
            have hxne : x ≠ id := Finset.ne_of_mem_erase hx
            have := hsub x hxs
            cases List.mem_cons.mp this with
            | inl hcontr => exact absurd hcontr hxne
            | inr hmem => exact hmem
          · rcases hor with h | h
            · exact Or.inl h
            · exact Or.inr (srvAction_mem_tail h (fun hcc => SrvAction.noConfusion hcc))
      · simp only [srvStep, if_neg hid]
        refine Or.inr (Or.inr ⟨hne, ?_, ?_⟩)
        · intro x hx
          have hxne : x ≠ id := by
            intro hcontr
            subst hcontr
            exact hid hx
          have := hsub x hx
          cases List.mem_cons.mp this with
          | inl hcontr => exact absurd hcontr hxne
          | inr hmem => exact hmem
        · rcases hor with h | h
          · exact Or.inl h
          · exact Or.inr (srvAction_mem_tail h (fun hcc => SrvAction.noConfusion hcc))

theorem willClose_nil (s : SrvState) (h : willClose s []) :
    s.closeLog ≠ [] := by
  rcases h with h | ⟨_, hc⟩ | ⟨hne, hsub, _⟩
  · exact h
  · exact absurd hc (List.not_mem_nil _)
  · obtain ⟨x, hx⟩ := Finset.nonempty_iff_ne_empty.mpr hne
    exact absurd (hsub x hx) (List.not_mem_nil _)

theorem srvRun_willClose (t : List SrvAction) (s : SrvState)
    (hval : srvValid s t) (h : willClose s t) :
    (srvRun s t).closeLog ≠ [] := by
  induction t generalizing s with
  | nil => exact willClose_nil s h
  | cons a t ih =>
    exact ih (srvStep s a) (srvValid_step s a t hval) (willClose_step s a t hval h)

/-- C2: across any interleaving of `Close`, `Shutdown` and session removals,
and regardless of whether active sessions exist when shutdown starts, the
done channel is closed exactly once, and only in a state where the shutdown
flag is true and the active-session set is empty under the session lock.
The trace may contain any number of `Close`/`Shutdown` flag stores and empty
checks, in program order (a check never precedes its flag store), and every
initially active session is eventually removed. -/
theorem done_single_close (s0 : SrvState) (t : List SrvAction)
    (hlog : s0.closeLog = [])
    (hval : srvValid s0 t)
    (hchk : SrvAction.emptyCheck ∈ t)
    (hrem : ∀ x ∈ s0.sessions, x ∈ removeIds t) :
    (srvRun s0 t).closeLog.length = 1 ∧
    ∀ e ∈ (srvRun s0 t).closeLog, e.1 = true ∧ e.2 = ∅ := by
  have hsafe := srvRun_logOK t s0 hval ⟨by rw [hlog]; simp, by rw [hlog]; simp⟩
  have hlive : willClose s0 t := by
    by_cases hemp : s0.sessions = ∅
    · exact Or.inr (Or.inl ⟨hemp, hchk⟩)
    · exact Or.inr (Or.inr ⟨hemp, hrem, Or.inr hchk⟩)
  have hne := srvRun_willClose t s0 hval hlive
  refine ⟨?_, hsafe.2⟩
  have hle := hsafe.1
  cases hcl : (srvRun s0 t).closeLog with
  | nil => exact absurd hcl hne
  | cons e es =>
    rw [hcl] at hle
    simp only [List.length_cons] at hle ⊢
    omega

/-- C2 witness: one active session, shutdown starting before the removal;
run: flag store, empty check (set still nonempty), removal (closes done). -/
theorem done_single_close_witness :
    (srvRun ⟨false, {7}, []⟩
      [SrvAction.setFlag, SrvAction.emptyCheck,
        SrvAction.removeSession 7]).closeLog.length = 1 ∧
    ∀ e ∈ (srvRun ⟨false, {7}, []⟩
      [SrvAction.setFlag, SrvAction.emptyCheck,
        SrvAction.removeSession 7]).closeLog, e.1 = true ∧ e.2 = ∅ :=
  done_single_close ⟨false, {7}, []⟩ _ rfl (Or.inr (by decide)) (by decide)
    (by decide)

/-! ## `Close` / `Shutdown` entry (`moqt/server.go`) -/

/-- Modelled from the spec: session error codes are defined elsewhere in the
`moqt` package; only their identities matter here. `NoError` is the graceful
close code. -/
def NoError : Nat := 0

/-- Modelled from the spec: the code used to force-close sessions when the
graceful shutdown deadline is exceeded. -/
def GoAwayTimeoutErrorCode : Nat := 4

/-- Error returned by `Close`/`Shutdown` on a server already shutting down. -/
inductive SrvErr
  | errServerClosed
deriving DecidableEq, Repr

/-- Server state touched by the `Close`/`Shutdown` entry paths: the lifecycle
state, the open-listener set, the `ln.Close()` calls issued, the session
`CloseWithError` calls issued (session id, code), and the GOAWAY sends. -/
structure ServerFull where
  life : SrvState
  listeners : Finset Nat
  listenerCloseCalls : List Nat
  sessionCloseCalls : List (Nat × Nat)
  goAwayCalls : List Nat
deriving DecidableEq

/-- From `server.go`, `Server.Close` up to the wait on the done channel: the
shutdown-flag guard returning `ErrServerClosed`, the flag store, the listener
close fan-out, the `CloseWithError(NoError)` fan-out over active sessions,
and the session-mutex block that closes the done channel when no session is
active. The subsequent blocking wait belongs to the trace machine
(`srvRun`). -/
def serverClose (s : ServerFull) : Option SrvErr × ServerFull :=
  if s.life.shutdown = true then (some .errServerClosed, s)
  else
    (none,
      { s with
        life := srvStep (srvStep s.life .setFlag) .emptyCheck,
        listenerCloseCalls :=
          s.listenerCloseCalls ++ s.listeners.sort (· ≤ ·),
        sessionCloseCalls :=
          s.sessionCloseCalls ++
            (s.life.sessions.sort (· ≤ ·)).map (fun id => (id, NoError)) })

/-- From `server.go`, `Server.Shutdown` up to the select on the done channel:
the same guard, flag store and listener close fan-out, the GOAWAY fan-out
over active sessions, and the session-mutex empty check. -/
def serverShutdown (s : ServerFull) : Option SrvErr × ServerFull :=
  if s.life.shutdown = true then (some .errServerClosed, s)
  else
    (none,
      { s with
        life := srvStep (srvStep s.life .setFlag) .emptyCheck,
        listenerCloseCalls :=
          s.listenerCloseCalls ++ s.listeners.sort (· ≤ ·),
        goAwayCalls := s.goAwayCalls ++ s.life.sessions.sort (· ≤ ·) })

/-- C7: on a server whose shutdown flag is already true, a subsequent `Close`
or `Shutdown` returns `ErrServerClosed` immediately, leaving the listener
set, the active-session set, and the done channel unchanged. -/
theorem shutdown_idempotent (s : ServerFull) (h : s.life.shutdown = true) :
    serverClose s = (some .errServerClosed, s) ∧
    serverShutdown s = (some .errServerClosed, s) ∧
    (serverClose s).2.listeners = s.listeners ∧
    (serverClose s).2.life.sessions = s.life.sessions ∧
    (serverClose s).2.life.closeLog = s.life.closeLog ∧
    (serverShutdown s).2.listeners = s.listeners ∧
    (serverShutdown s).2.life.sessions = s.life.sessions ∧
    (serverShutdown s).2.life.closeLog = s.life.closeLog := by
  have hc : serverClose s = (some .errServerClosed, s) := by
    unfold serverClose
    rw [if_pos h]
  have hs : serverShutdown s = (some .errServerClosed, s) := by
    unfold serverShutdown
    rw [if_pos h]
  rw [hc, hs]
  exact ⟨rfl, rfl, rfl, rfl, rfl, rfl, rfl, rfl⟩

/-- C7 witness: a shut-down server with a listener and a session refuses both
calls without state changes. -/
theorem shutdown_idempotent_witness :
    serverClose ⟨⟨true, {3}, []⟩, {1}, [], [], []⟩ =
      (some .errServerClosed, ⟨⟨true, {3}, []⟩, {1}, [], [], []⟩) ∧
    serverShutdown ⟨⟨true, {3}, []⟩, {1}, [], [], []⟩ =
      (some .errServerClosed, ⟨⟨true, {3}, []⟩, {1}, [], [], []⟩) := by
  have h := shutdown_idempotent ⟨⟨true, {3}, []⟩, {1}, [], [], []⟩ rfl
  exact ⟨h.1, h.2.1⟩

/-- From `server.go`, the `ctx.Done()` branch of `Shutdown`'s select: the
forced `CloseWithError(GoAwayTimeoutErrorCode)` fan-out over the sessions
still active, after which `Shutdown` blocks on the done channel. -/
def shutdownForceCloses (s : SrvState) : List (Nat × Nat) :=
  (s.sessions.sort (· ≤ ·)).map (fun id => (id, GoAwayTimeoutErrorCode))

theorem removeIds_map (order : List Nat) :
    removeIds (order.map SrvAction.removeSession) = order := by
  induction order with
  | nil => rfl
  | cons o os ih => simp only [List.map_cons, removeIds, ih]

/-- C8: if the context passed to `Shutdown` becomes done before the done
channel closes, `Shutdown` force-closes every still-active session with
`GoAwayTimeoutErrorCode` — exactly one forced close per active session, all
with that code — and returns only after the done channel has closed: once the
forced sessions are removed (in any order covering them), the done channel is
closed, so the final wait completes. -/
theorem shutdown_deadline_force (s : SrvState)
    (hflag : s.shutdown = true) (hne : s.sessions ≠ ∅) :
    (∀ p ∈ shutdownForceCloses s, p.2 = GoAwayTimeoutErrorCode) ∧
    (∀ id, (id, GoAwayTimeoutErrorCode) ∈ shutdownForceCloses s ↔
      id ∈ s.sessions) ∧
    (shutdownForceCloses s).length = s.sessions.card ∧
    (∀ order : List Nat, (∀ x ∈ s.sessions, x ∈ order) →
      (srvRun s (order.map SrvAction.removeSession)).closeLog ≠ []) := by
  refine ⟨?_, ?_, ?_, ?_⟩
  · intro p hp
    simp only [shutdownForceCloses, List.mem_map] at hp
    obtain ⟨id, _, rfl⟩ := hp
    rfl
  · intro id
    simp [shutdownForceCloses, Finset.mem_sort]
  · simp [shutdownForceCloses]
  · intro order hord
    have hrem : ∀ x ∈ s.sessions, x ∈ removeIds (order.map SrvAction.removeSession) := by
      intro x hx
      rw [removeIds_map]
      exact hord x hx
    exact srvRun_willClose _ s (Or.inl hflag)
      (Or.inr (Or.inr ⟨hne, hrem, Or.inl hflag⟩))

/-- C8 witness: two stuck sessions are each force-closed once with the
timeout code, and their removals close the done channel. -/
theorem shutdown_deadline_force_witness :
    (∀ p ∈ shutdownForceCloses ⟨true, {1, 2}, []⟩,
      p.2 = GoAwayTimeoutErrorCode) ∧
    (shutdownForceCloses ⟨true, {1, 2}, []⟩).length = 2 ∧
    (srvRun ⟨true, {1, 2}, []⟩
      [SrvAction.removeSession 1, SrvAction.removeSession 2]).closeLog ≠ [] := by
  have h := shutdown_deadline_force ⟨true, {1, 2}, []⟩ rfl (by decide)
  refine ⟨h.1, ?_, ?_⟩
  · rw [h.2.2.1]
    decide
  · exact h.2.2.2 [1, 2] (by decide)

/-! ## Session setup (`moqt/server.go`, `acceptSessionStream`)

The decoders of `moqt/internal/message` are not among the sources; they are
modelled from the spec's wire formats. The accepted bidirectional stream is a
byte list followed by a termination condition: clean EOF, or a transport
reset carrying an application error code (a read past the buffered bytes
surfaces that condition). -/

/-- Modelled from the spec: the distinct stream-type tag of the session
stream; its numeric value is defined in `moqt/internal/message`. -/
def streamTypeSession : Nat := 0

/-- Modelled from the spec: the parameter tag carrying the path string. -/
def param_type_path : Nat := 1

/-- Termination of the transport read source past its buffered bytes. -/
inductive StreamTerm
  | eof
  | appError (code : Nat)
deriving DecidableEq, Repr

structure RecvStream where
  bytes : List Nat
  term : StreamTerm
deriving DecidableEq, Repr

/-- Modelled from the spec: `message.StreamType.Decode` reads the stream-type
varint, the first varint on any new bidirectional stream. -/
def StreamType.decode (l : List Nat) : Option (Nat × List Nat) :=
  match readVarint l with
  | some (v, _, rest) => some (v, rest)
  | none => none

/-- Modelled from the spec: decode a fixed count of varints (the offered
versions). -/
def decodeVersions : Nat → List Nat → Option (List Nat × List Nat)
  | 0, l => some ([], l)
  | n + 1, l =>
    match readVarint l with
    | none => none
    | some (v, _, r) =>
      match decodeVersions n r with
      | none => none
      | some (vs, r2) => some (v :: vs, r2)

/-- Modelled from the spec: decode a fixed count of
`(tag, length, bytes)` parameter triples. -/
def decodeParams : Nat → List Nat → Option (List (Nat × List Nat) × List Nat)
  | 0, l => some ([], l)
  | n + 1, l =>
    match readVarint l with
    | none => none
    | some (tag, _, r) =>
      match readVarint r with
      | none => none
      | some (len, _, r2) =>
        match readFull len r2 with
        | none => none
        | some (bs, r3) =>
          match decodeParams n r3 with
          | none => none
          | some (ps, r4) => some ((tag, bs) :: ps, r4)

structure SessionClientMessage where
  supportedVersions : List Nat
  parameters : List (Nat × List Nat)
deriving DecidableEq, Repr

/-- Modelled from the spec: `message.SessionClientMessage.Decode` — a varint
count of versions, that many varints, then a varint parameter count and that
many `(tag, length, bytes)` triples. -/
def SessionClientMessage.decode (l : List Nat) :
    Option (SessionClientMessage × List Nat) :=
  match readVarint l with
  | none => none
  | some (vc, _, r1) =>
    match decodeVersions vc r1 with
    | none => none
    | some (vs, r2) =>
      match readVarint r2 with
      | none => none
      | some (pc, _, r3) =>
        match decodeParams pc r3 with
        | none => none
        | some (ps, r4) =>
          some ({ supportedVersions := vs, parameters := ps }, r4)

/-- Modelled from the spec: `Extension.GetString` — look up a tag in the
parameter map, returning the value bytes and a present flag. -/
def Extension.GetString (ps : List (Nat × List Nat)) (tag : Nat) :
    List Nat × Bool :=
  match ps.find? (fun p => p.1 == tag) with
  | some p => (p.2, true)
  | none => ([], false)

/-- Errors of `acceptSessionStream` after the stream has been accepted. -/
inductive AcceptErr
  | sessionError (code : Nat)
  | streamTypeDecode
  | clientMessageDecode
deriving DecidableEq, Repr

/-- The request handed to the setup handler: path (bytes of the `path`
parameter, empty if absent), offered versions, raw parameter map. -/
structure SetupRequest where
  path : List Nat
  versions : List Nat
  clientExtensions : List (Nat × List Nat)
deriving DecidableEq, Repr

/-- From `server.go`, `acceptSessionStream` after `conn.AcceptStream`: decode
the stream type, wrapping a transport application error as a `SessionError`
and any other failure as a wrapped decode error; then decode the
`SessionClientMessage` with the same wrapping, extract the `path` parameter,
and build the `SetupRequest`. The decoded stream-type value is bound but
never compared against the session tag before proceeding. -/
def acceptSessionStream (conn : RecvStream) : Except AcceptErr SetupRequest :=
  match StreamType.decode conn.bytes with
  | none =>
    .error (match conn.term with
      | .appError c => .sessionError c
      | .eof => .streamTypeDecode)
  | some (_, rest) =>
    match SessionClientMessage.decode rest with
    | none =>
      .error (match conn.term with
        | .appError c => .sessionError c
        | .eof => .clientMessageDecode)
    | some (scm, _) =>
      .ok { path := (Extension.GetString scm.parameters param_type_path).1,
            versions := scm.supportedVersions,
            clientExtensions := scm.parameters }

/-- C5 counterexample: a stream whose first varint is NOT the session tag
(tag 1 instead of `streamTypeSession = 0`), followed by a well-formed empty
`SessionClientMessage`, is still accepted: `acceptSessionStream` decodes the
client message and builds a `SetupRequest`, refuting "proceeds only when the
first varint carries the distinct session tag". -/
theorem acceptSessionStream_tag_unchecked :
    StreamType.decode [1, 0, 0] = some (1, [0, 0]) ∧
    (1 : Nat) ≠ streamTypeSession ∧
    acceptSessionStream ⟨[1, 0, 0], .eof⟩ =
      .ok { path := [], versions := [], clientExtensions := [] } :=
  ⟨rfl, by decide, rfl⟩

/-- C5 (amended): `acceptSessionStream` proceeds to decode the
`SessionClientMessage` and build a `SetupRequest` whenever the `StreamType`
varint decodes successfully, regardless of its tag value; when the
`StreamType` decode fails with a transport application error, the result is a
`SessionError` wrapping that application error. -/
theorem acceptSessionStream_gate (conn : RecvStream) :
    (∀ v rest scm r2, StreamType.decode conn.bytes = some (v, rest) →
      SessionClientMessage.decode rest = some (scm, r2) →
      acceptSessionStream conn = .ok
        { path := (Extension.GetString scm.parameters param_type_path).1,
          versions := scm.supportedVersions,
          clientExtensions := scm.parameters }) ∧
    (∀ c, StreamType.decode conn.bytes = none → conn.term = .appError c →
      acceptSessionStream conn = .error (.sessionError c)) := by
  constructor
  · intro v rest scm r2 hst hscm
    simp [acceptSessionStream, hst, hscm]
  · intro c hst hterm
    simp [acceptSessionStream, hst, hterm]

/-- C5 witness: the amended gate at a non-session tag, and the
`SessionError` wrapping at an application-error reset. -/
theorem acceptSessionStream_gate_witness :
    acceptSessionStream ⟨[1, 1, 33, 0], .eof⟩ =
      .ok { path := [], versions := [33], clientExtensions := [] } ∧
    acceptSessionStream ⟨[], .appError 9⟩ = .error (.sessionError 9) := by
  constructor
  · exact (acceptSessionStream_gate ⟨[1, 1, 33, 0], .eof⟩).1 1 [1, 33, 0]
      { supportedVersions := [33], parameters := [] } [] (by decide) (by decide)
  · exact (acceptSessionStream_gate ⟨[], .appError 9⟩).2 9 (by decide) rfl

/-! ## WebTransport server wrapper
(`webtransport/webtransportgo`, `serverWrapper.ServeQUICConn`) -/

/-- A `quic.Connection` argument: the nil interface, a connection whose
dynamic type has an `Unwrap` accessor (carrying the underlying quic-go
connection), or one without. -/
inductive QuicConn
  | nilConn
  | unwrappable (inner : Nat)
  | plain
deriving DecidableEq, Repr

inductive WTErr
  | invalidConnType
deriving DecidableEq, Repr

/-- From `webtransportgo`, `serverWrapper.ServeQUICConn`: a nil connection
returns a nil error without calling the underlying HTTP/3 server; a
connection with `Unwrap` is handed (unwrapped) to the underlying server,
whose result propagates; any other connection yields an error. `underlying`
is the HTTP/3 server's `ServeQUICConn`; the second component records the
unwrapped connections handed to it. -/
def serveQUICConn (underlying : Nat → Option WTErr) :
    QuicConn → Option WTErr × List Nat
  | .nilConn => (none, [])
  | .unwrappable inner => (underlying inner, [inner])
  | .plain => (some .invalidConnType, [])

/-- C10: for a nil connection, `ServeQUICConn` returns nil without invoking
the underlying HTTP/3 server; only for a non-nil connection does it attempt
the `Unwrap` accessor, delegating when present and erroring when the
connection does not provide one. -/
theorem serveQUICConn_nil_ok (underlying : Nat → Option WTErr) :
    serveQUICConn underlying .nilConn = (none, []) ∧
    (∀ inner, serveQUICConn underlying (.unwrappable inner) =
      (underlying inner, [inner])) ∧
    serveQUICConn underlying .plain = (some .invalidConnType, []) :=
  ⟨rfl, fun _ => rfl, rfl⟩

end GoMoqt
